import Mathlib

/-!
Shallow embedding of the Latent-Stars star-catalog pipeline
(`src/backend/src/hr_diagram_plot.py`, `src/backend/src/color_palette.py`,
`src/backend/src/latent_space_plot_3d.py`) and proofs of the specified
properties of its spectral-classification core.

Strings are embedded as `List Char` (missing values as `none : Option _`),
floats whose values are always small exact decimals (sub-class intensities,
which are single digits or the default 5.0) as `Rat`, and the per-attempt
outcome of an HTTP request as an explicit success/failure value.
-/

namespace LatentStars

/-- The six ASCII whitespace characters stripped by Python's `str.strip`. -/
def isPySpace (c : Char) : Bool :=
  c = ' ' || c = '\t' || c = '\n' || c = '\r' || c = '\x0b' || c = '\x0c'

/-- Python `str.upper`, character-wise (catalog data is ASCII). -/
def pyUpper (s : List Char) : List Char :=
  s.map Char.toUpper

/-- Python `str.strip`: remove leading and trailing whitespace. -/
def pyStrip (s : List Char) : List Char :=
  ((s.dropWhile isPySpace).reverse.dropWhile isPySpace).reverse

/-- The character class `[OBAFGKMRNSWCPLD]` of the regex in
`extract_spectral_data` (`hr_diagram_plot.py`). -/
def spectralAlphabet : List Char :=
  ['O', 'B', 'A', 'F', 'G', 'K', 'M', 'R', 'N', 'S', 'W', 'C', 'P', 'L', 'D']

/-- Python `float(d)` for a single digit character `d`. -/
def digitValue (c : Char) : Rat :=
  ((c.toNat - 48 : Nat) : Rat)

/-- `re.search(r'([OBAFGKMRNSWCPLD])(\d)?', s)`: the leftmost occurrence of an
alphabet letter, together with the digit immediately following it, if any. -/
def reSearchClass : List Char → Option (Char × Option Char)
  | [] => none
  | c :: rest =>
    if c ∈ spectralAlphabet then
      some (c, match rest with
               | [] => none
               | d :: _ => if d.isDigit then some d else none)
    else reSearchClass rest

/-- `extract_spectral_data` from `hr_diagram_plot.py`: `None`/empty input gives
`(None, None)`; otherwise the string is upper-cased and stripped and the first
alphabet letter (with the digit immediately after it, defaulting to 5.0) is
returned; if no alphabet letter occurs, `(None, None)`. -/
def extract_spectral_data (spect : Option (List Char)) : Option Char × Option Rat :=
  match spect with
  | none => (none, none)
  | some s =>
    if s = [] then (none, none)
    else
      match reSearchClass (pyStrip (pyUpper s)) with
      | some (cl, some d) => (some cl, some (digitValue d))
      | some (cl, none) => (some cl, some 5)
      | none => (none, none)

/-- `COLOR_MAP` from `color_palette.py`: the 14-entry class-letter → hex-color
table. -/
def COLOR_MAP : List (Char × String) :=
  [('O', r"#8bd1ff"),
   ('B', r"#a7caff"),
   ('A', r"#dae9ff"),
   ('F', r"#fff7e8"),
   ('G', r"#ffe9b5"),
   ('K', r"#ffcd89"),
   ('M', r"#ffa77d"),
   ('D', r"#ffffff"),
   ('N', r"#a52a2a"),
   ('C', r"#800000"),
   ('R', r"#cd5c5c"),
   ('P', r"#7fffd4"),
   ('S', r"#ffd700"),
   ('W', r"#fd3db5")]

/-- `spectral_map` from `color_palette.py`: class letter → ordering rank. -/
def spectral_map : List (Char × Nat) :=
  [('W', 0), ('O', 1), ('B', 2), ('A', 3), ('F', 4), ('G', 5), ('K', 6),
   ('M', 7), ('S', 8), ('R', 9), ('C', 10), ('N', 11), ('D', 12), ('P', 13)]

/-- `df['spect_class'].map(COLOR_MAP)` applied to one entry: a missing class
letter or a letter without a table entry gives a missing color. -/
def resolve_color (cl : Option Char) : Option String :=
  cl.bind (fun c => List.lookup c COLOR_MAP)

/-- One row of the HYG catalog, restricted to the fields the pipeline reads.
Missing (NaN) cells are `none`. -/
structure CatalogRecord where
  id : Int
  absmag : Option Rat
  ci : Option Rat
  lum : Option Rat
  spect : Option (List Char)
deriving DecidableEq

/-- A catalog row augmented with the derived classification and color columns
(`spect_class`, `spect_num`, `color`). -/
structure PlottableRow where
  record : CatalogRecord
  spect_class : Option Char
  spect_num : Option Rat
  color : Option String
deriving DecidableEq

/-- `df.dropna(subset=['absmag', 'ci', 'spect'])` applied to one row. -/
def requiredFields (r : CatalogRecord) : Bool :=
  r.absmag.isSome && r.ci.isSome && r.spect.isSome

/-- `df.loc[df['id'] == 65218, 'spect'] = 'F7'` applied to one row: the
hard-coded point-fix for the record with catalog identifier 65218. -/
def anomalyFix (r : CatalogRecord) : CatalogRecord :=
  if r.id = 65218 then { r with spect := some ('F' :: '7' :: []) } else r

/-- The per-row work of `process_data` after the dropna filter: apply the
anomaly fix, classify the spectral string, and look up the color. -/
def rowOf (r : CatalogRecord) : PlottableRow :=
  { record := anomalyFix r
  , spect_class := (extract_spectral_data (anomalyFix r).spect).1
  , spect_num := (extract_spectral_data (anomalyFix r).spect).2
  , color := resolve_color (extract_spectral_data (anomalyFix r).spect).1 }

/-- The row-level pipeline of `process_data` (`hr_diagram_plot.py`): filter to
rows with `absmag`, `ci` and `spect` present, then derive the classification
columns for each retained row. -/
def process_rows (rs : List CatalogRecord) : List PlottableRow :=
  (rs.filter requiredFields).map rowOf

/-- The exception raised when `pd.read_csv(hyg_file, compression='gzip')`
fails to read or decompress the payload. -/
inductive ReadFailure where
  | readFault (code : Nat)
deriving DecidableEq

/-- `process_data`: a failed read/decompress returns `None`; a successful read
runs the row-level pipeline. -/
def process_data : Except ReadFailure (List CatalogRecord) → Option (List PlottableRow)
  | Except.error _ => none
  | Except.ok rs => some (process_rows rs)

/-- Outcome of one `requests.get` attempt in `download_data`: either the
response payload, or a raised `RequestException` (network error, timeout, or
the non-success HTTP status raised by `raise_for_status`), identified by a
numeric code. -/
inductive AttemptResult (α : Type) where
  | success (payload : α)
  | failure (code : Nat)
deriving DecidableEq

/-- `download_data` from `hr_diagram_plot.py`, abstracted over the outcome of
each URL in order: return the payload of the first successful attempt; if
every attempt raises, return `None`. -/
def download_data {α : Type} : List (AttemptResult α) → Option α
  | [] => none
  | AttemptResult.success p :: _ => some p
  | AttemptResult.failure _ :: rest => download_data rest

/-- `df['spect'].str[0].str.upper().map(COLOR_MAP)` from
`latent_space_plot_3d.py` applied to one entry: the upper-cased first
character of the spectral string, looked up in the color table (missing for a
missing or empty string). -/
def latent_color (spect : Option (List Char)) : Option String :=
  match spect with
  | none => none
  | some [] => none
  | some (c :: _) => List.lookup c.toUpper COLOR_MAP

/-- Formalisation of the spec's classification rule, from its words: "the
first occurrence of a character drawn from the fixed alphabet that is
optionally followed immediately by a single decimal digit", with intensity
"that digit as a float, otherwise 5.0". Applied to the normalized string. -/
def specClassify : List Char → Option (Char × Rat)
  | [] => none
  | c :: rest =>
    if c ∈ spectralAlphabet then
      some (c, match rest with
               | [] => (5 : Rat)
               | d :: _ => if d.isDigit then digitValue d else (5 : Rat))
    else specClassify rest

/-- Formalisation of the spec's condition for an absent classification, from
its words: input is missing or empty, or the upper-cased trimmed string
contains no character of the alphabet anywhere. -/
def classifyAbsentCond (spect : Option (List Char)) : Bool :=
  match spect with
  | none => true
  | some s => s.isEmpty || (pyStrip (pyUpper s)).all (fun x => !(spectralAlphabet.contains x))

/-- Sample record: the anomalous record 65218 with source spectral string
`(G3w)F7`. -/
def sampleAnomaly : CatalogRecord :=
  { id := 65218
  , absmag := some 2
  , ci := some 1
  , lum := some 2
  , spect := some ('(' :: 'G' :: '3' :: 'w' :: ')' :: 'F' :: '7' :: []) }

/-- Sample record: an ordinary G2V star. -/
def sampleG2V : CatalogRecord :=
  { id := 1
  , absmag := some 5
  , ci := some 1
  , lum := some 1
  , spect := some ('G' :: '2' :: 'V' :: []) }

/-- Sample record: required fields present but the spectral string `/` has no
alphabet letter, so it is unclassifiable. -/
def sampleUnclassifiable : CatalogRecord :=
  { id := 7
  , absmag := some 0
  , ci := some 0
  , lum := none
  , spect := some ('/' :: []) }

lemma mem_dropWhile_of_mem {α : Type} {p : α → Bool} {x : α} {l : List α}
    (hx : x ∈ l) (hpx : p x = false) : x ∈ l.dropWhile p := by
  induction l with
  | nil => cases hx
  | cons a t ih =>
    rw [List.dropWhile_cons]
    split
    · rcases List.mem_cons.mp hx with rfl | hxt
      · simp_all
      · exact ih hxt
    · exact hx

lemma mem_pyStrip {x : Char} {l : List Char} (hx : x ∈ l)
    (hpx : isPySpace x = false) : x ∈ pyStrip l :=
  List.mem_reverse.mpr
    (mem_dropWhile_of_mem (List.mem_reverse.mpr (mem_dropWhile_of_mem hx hpx)) hpx)

lemma reSearchClass_eq_none_iff (t : List Char) :
    reSearchClass t = none ↔ ∀ x ∈ t, x ∉ spectralAlphabet := by
  induction t with
  | nil => simp [reSearchClass]
  | cons a r ih =>
    by_cases ha : a ∈ spectralAlphabet
    · simp [reSearchClass, ha]
    · simp [reSearchClass, ha, ih]

lemma reSearchClass_isSome_of_mem {t : List Char}
    (h : ∃ x ∈ t, x ∈ spectralAlphabet) : (reSearchClass t).isSome = true := by
  rcases h with ⟨x, hxt, hxa⟩
  cases hr : reSearchClass t with
  | some p => rfl
  | none => exact absurd hxa ((reSearchClass_eq_none_iff t).mp hr x hxt)

lemma reSearchClass_class_mem {t : List Char} {cl : Char} {od : Option Char}
    (h : reSearchClass t = some (cl, od)) : cl ∈ spectralAlphabet := by
  induction t with
  | nil => simp [reSearchClass] at h
  | cons a r ih =>
    by_cases ha : a ∈ spectralAlphabet
    · simp [reSearchClass, ha] at h
      exact h.1 ▸ ha
    · simp [reSearchClass, ha] at h
      exact ih h

lemma specClassify_eq_reSearch (t : List Char) :
    specClassify t = (reSearchClass t).map
      (fun p => (p.1, Option.elim p.2 (5 : Rat) digitValue)) := by
  induction t with
  | nil => rfl
  | cons a r ih =>
    by_cases ha : a ∈ spectralAlphabet
    · cases r with
      | nil => simp [specClassify, reSearchClass, ha]
      | cons d r2 =>
        by_cases hd : d.isDigit <;> simp [specClassify, reSearchClass, ha, hd]
    · simp [specClassify, reSearchClass, ha, ih]

lemma extract_of_reSearch {s : List Char} (hs : s ≠ []) :
    extract_spectral_data (some s) =
      match reSearchClass (pyStrip (pyUpper s)) with
      | some (cl, some d) => (some cl, some (digitValue d))
      | some (cl, none) => (some cl, some 5)
      | none => (none, none) := by
  have h1 : extract_spectral_data (some s) =
      if s = [] then ((none : Option Char), (none : Option Rat))
      else
        match reSearchClass (pyStrip (pyUpper s)) with
        | some (cl, some d) => (some cl, some (digitValue d))
        | some (cl, none) => (some cl, some 5)
        | none => (none, none) := rfl
  rw [h1, if_neg hs]

lemma alphabet_not_space {u : Char} (hu : u ∈ spectralAlphabet) :
    isPySpace u = false := by
  have hall : spectralAlphabet.all (fun v => !(isPySpace v)) = true := by decide
  have h2 := List.all_eq_true.mp hall u hu
  simpa using h2

/-- Claim C1: every raw spectral string matching
`^\s*[a-zA-Z]*([OBAFGKMRNSWCPLD])(\d)?.*$` (case-insensitive) — that is, any
string of the form whitespace, then ASCII letters, then an alphabet letter,
then anything — classifies to a present class letter and intensity, and the
result is exactly the spec's first-occurrence rule (`specClassify`) applied
to the upper-cased, whitespace-trimmed string: the first alphabet letter,
with the digit immediately after it as intensity, or 5.0 when no digit
follows. -/
theorem classify_pattern_strings (ws letters rest : List Char) (c : Char)
    (_hws : ∀ x ∈ ws, isPySpace x = true)
    (_hletters : ∀ x ∈ letters, x.isAlpha = true)
    (hc : c.toUpper ∈ spectralAlphabet) :
    ∃ cl q,
      specClassify (pyStrip (pyUpper (ws ++ letters ++ c :: rest))) = some (cl, q) ∧
      cl ∈ spectralAlphabet ∧
      extract_spectral_data (some (ws ++ letters ++ c :: rest)) = (some cl, some q) := by
  have hs : ws ++ letters ++ c :: rest ≠ [] := by simp
  have hcm : c.toUpper ∈ pyUpper (ws ++ letters ++ c :: rest) :=
    List.mem_map_of_mem Char.toUpper (by simp)
  have hmem : c.toUpper ∈ pyStrip (pyUpper (ws ++ letters ++ c :: rest)) :=
    mem_pyStrip hcm (alphabet_not_space hc)
  have hsome := reSearchClass_isSome_of_mem ⟨c.toUpper, hmem, hc⟩
  obtain ⟨⟨cl, od⟩, hr⟩ := Option.isSome_iff_exists.mp hsome
  refine ⟨cl, Option.elim od (5 : Rat) digitValue, ?_,
    reSearchClass_class_mem hr, ?_⟩
  · rw [specClassify_eq_reSearch, hr]
    rfl
  · rw [extract_of_reSearch hs, hr]
    cases od <;> rfl

/-- Witness for C1 at the concrete input `g2`. -/
theorem classify_pattern_strings_witness :
    ∃ cl q,
      specClassify (pyStrip (pyUpper ('g' :: '2' :: []))) = some (cl, q) ∧
      cl ∈ spectralAlphabet ∧
      extract_spectral_data (some ('g' :: '2' :: [])) = (some cl, some q) :=
  classify_pattern_strings [] [] ('2' :: []) 'g' (by simp) (by simp) (by decide)

/-- Claim C3: `classify` returns both outputs absent exactly when its input is
missing or empty, or when the upper-cased trimmed string contains no
character of the alphabet anywhere (`classifyAbsentCond`); for every other
input both outputs are present. -/
theorem classify_absent_iff (spect : Option (List Char)) :
    (extract_spectral_data spect = (none, none) ↔ classifyAbsentCond spect = true) ∧
    (classifyAbsentCond spect = false →
      ∃ cl q, extract_spectral_data spect = (some cl, some q)) := by
  constructor
  · cases spect with
    | none => simp [extract_spectral_data, classifyAbsentCond]
    | some s =>
      by_cases hs : s = []
      · subst hs
        simp [extract_spectral_data, classifyAbsentCond]
      · rw [extract_of_reSearch hs]
        have hcond : classifyAbsentCond (some s) = true ↔
            ∀ x ∈ pyStrip (pyUpper s), x ∉ spectralAlphabet := by
          simp [classifyAbsentCond, hs, List.all_eq_true]
        rw [hcond, ← reSearchClass_eq_none_iff]
        cases hr : reSearchClass (pyStrip (pyUpper s)) with
        | none => simp
        | some p =>
          rcases p with ⟨cl, od⟩
          cases od <;> simp
  · intro hfalse
    cases spect with
    | none => simp [classifyAbsentCond] at hfalse
    | some s =>
      by_cases hs : s = []
      · subst hs
        simp [classifyAbsentCond] at hfalse
      · have hex : ∃ x ∈ pyStrip (pyUpper s), x ∈ spectralAlphabet := by
          by_contra hno
          push_neg at hno
          have : classifyAbsentCond (some s) = true := by
            simp [classifyAbsentCond, List.all_eq_true]
            exact Or.inr hno
          rw [this] at hfalse
          cases hfalse
        have hsome := reSearchClass_isSome_of_mem hex
        obtain ⟨⟨cl, od⟩, hr⟩ := Option.isSome_iff_exists.mp hsome
        rw [extract_of_reSearch hs, hr]
        cases od with
        | none => exact ⟨cl, 5, rfl⟩
        | some d => exact ⟨cl, digitValue d, rfl⟩

/-- Witness for C3 at the concrete input `G2`. -/
theorem classify_absent_iff_witness :
    ∃ cl q, extract_spectral_data (some ('G' :: '2' :: [])) = (some cl, some q) :=
  (classify_absent_iff (some ('G' :: '2' :: []))).2 (by decide)

lemma anomalyFix_id (r : CatalogRecord) : (anomalyFix r).id = r.id := by
  unfold anomalyFix
  split <;> rfl

lemma anomalyFix_absmag (r : CatalogRecord) : (anomalyFix r).absmag = r.absmag := by
  unfold anomalyFix
  split <;> rfl

lemma anomalyFix_ci (r : CatalogRecord) : (anomalyFix r).ci = r.ci := by
  unfold anomalyFix
  split <;> rfl

lemma anomalyFix_lum (r : CatalogRecord) : (anomalyFix r).lum = r.lum := by
  unfold anomalyFix
  split <;> rfl

lemma anomalyFix_spect_fix (r : CatalogRecord) (h : r.id = 65218) :
    (anomalyFix r).spect = some ('F' :: '7' :: []) := by
  unfold anomalyFix
  rw [if_pos h]

lemma anomalyFix_spect_keep (r : CatalogRecord) (h : r.id ≠ 65218) :
    (anomalyFix r).spect = r.spect := by
  unfold anomalyFix
  rw [if_neg h]

lemma lookup_eq_none_of_forall {β : Type} (c : Char) (l : List (Char × β))
    (h : ∀ p ∈ l, p.1 ≠ c) : List.lookup c l = none := by
  induction l with
  | nil => rfl
  | cons a t ih =>
    rcases a with ⟨k, v⟩
    have hk : (c == k) = false :=
      beq_eq_false_iff_ne.mpr
        (fun hck => h (k, v) (List.mem_cons_self _ _) hck.symm)
    have hstep : List.lookup c ((k, v) :: t) = List.lookup c t := by
      simp only [List.lookup, hk]
    rw [hstep]
    exact ih (fun p hp => h p (List.mem_cons_of_mem _ hp))

/-- Claim C2: in the normalizer, any emitted row whose record carries catalog
identifier 65218 had its raw spectral string replaced by the literal `F7`
before classification, so it classifies to class `F` with intensity 7.0; the
general rule on the source value `(G3w)F7` would instead give class `G` with
intensity 3.0; and no other record's spectral string is overridden. -/
theorem anomaly_override_65218 (rs : List CatalogRecord) (row : PlottableRow)
    (h : row ∈ process_rows rs) :
    ((row.record.id = 65218 →
        row.record.spect = some ('F' :: '7' :: []) ∧
        row.spect_class = some 'F' ∧
        row.spect_num = some 7) ∧
     (row.record.id ≠ 65218 →
        ∃ r, r ∈ rs ∧ requiredFields r = true ∧ row = rowOf r ∧
          row.record.spect = r.spect)) ∧
    extract_spectral_data (some ('(' :: 'G' :: '3' :: 'w' :: ')' :: 'F' :: '7' :: [])) =
      (some 'G', some 3) := by
  refine ⟨⟨?_, ?_⟩, by decide⟩
  · intro hid
    obtain ⟨r, hmem, hrow⟩ := List.mem_map.mp h
    subst hrow
    have heq : (rowOf r).record.id = r.id := anomalyFix_id r
    rw [heq] at hid
    have hspect : (rowOf r).record.spect = some ('F' :: '7' :: []) :=
      anomalyFix_spect_fix r hid
    refine ⟨hspect, ?_, ?_⟩
    · show (extract_spectral_data (anomalyFix r).spect).1 = some 'F'
      rw [show (anomalyFix r).spect = some ('F' :: '7' :: []) from hspect]
      decide
    · show (extract_spectral_data (anomalyFix r).spect).2 = some 7
      rw [show (anomalyFix r).spect = some ('F' :: '7' :: []) from hspect]
      decide
  · intro hid
    obtain ⟨r, hmem, hrow⟩ := List.mem_map.mp h
    have hf := List.mem_filter.mp hmem
    subst hrow
    have heq : (rowOf r).record.id = r.id := anomalyFix_id r
    rw [heq] at hid
    exact ⟨r, hf.1, hf.2, rfl, anomalyFix_spect_keep r hid⟩

/-- Witness for C2 at a one-row catalog holding the anomalous record. -/
theorem anomaly_override_65218_witness :
    (rowOf sampleAnomaly).record.spect = some ('F' :: '7' :: []) ∧
    (rowOf sampleAnomaly).spect_class = some 'F' ∧
    (rowOf sampleAnomaly).spect_num = some 7 :=
  (anomaly_override_65218 (sampleAnomaly :: []) (rowOf sampleAnomaly)
    (by decide)).1.1 (by decide)

/-- Claim C4: `resolve_color` is a pure lookup in the fixed 14-entry
class-letter → color table: `O` resolves to `#8bd1ff`, and every letter with
no table entry — including `L` and `Z` — resolves to absent, with no fallback
color synthesized. -/
theorem resolve_color_table_lookup :
    COLOR_MAP.length = 14 ∧
    resolve_color (some 'O') = some (r"#8bd1ff") ∧
    resolve_color (some 'L') = none ∧
    resolve_color (some 'Z') = none ∧
    (∀ c : Char, c ∉ COLOR_MAP.map Prod.fst → resolve_color (some c) = none) := by
  refine ⟨by decide, rfl, rfl, rfl, ?_⟩
  intro c hc
  have hne : ∀ p ∈ COLOR_MAP, p.1 ≠ c := by
    intro p hp he
    exact hc (he ▸ List.mem_map_of_mem Prod.fst hp)
  simpa [resolve_color] using lookup_eq_none_of_forall c COLOR_MAP hne

/-- Witness for C4 at the concrete non-letter key `(`. -/
theorem resolve_color_table_lookup_witness :
    resolve_color (some '(') = none :=
  resolve_color_table_lookup.2.2.2.2 '(' (by decide)

/-- Claim C5: every record surviving the required-field filter appears exactly
once, in order, in the normalizer's output (position `i` of the output is the
processed position `i` of the filtered input), and a present-but-unparseable
spectral string yields absent classification and color while the row is
retained. -/
theorem normalizer_completeness (rs : List CatalogRecord) :
    (∀ i : Nat,
       (process_rows rs)[i]? = ((rs.filter requiredFields)[i]?).map rowOf) ∧
    (∀ r : CatalogRecord, requiredFields r = true →
       extract_spectral_data (anomalyFix r).spect = (none, none) →
       (rowOf r).spect_class = none ∧ (rowOf r).spect_num = none ∧
       (rowOf r).color = none) := by
  constructor
  · intro i
    simp [process_rows]
  · intro r _ hext
    refine ⟨?_, ?_, ?_⟩ <;> simp [rowOf, hext, resolve_color]

/-- Witness for C5 at a record whose spectral string `/` is unclassifiable. -/
theorem normalizer_completeness_witness :
    (rowOf sampleUnclassifiable).spect_class = none ∧
    (rowOf sampleUnclassifiable).spect_num = none ∧
    (rowOf sampleUnclassifiable).color = none :=
  (normalizer_completeness (sampleUnclassifiable :: [])).2 sampleUnclassifiable
    (by decide) (by decide)

/-- Claim C6, counterexample: on the spectral string `(G3w)F7` the 3D
latent-space variant assigns no color (the first character `(` has no table
entry), while the main pipeline's classifier yields class `G`, whose
table color is present — so the two color assignments differ. -/
theorem latent_color_counterexample :
    ¬ (latent_color (some ('(' :: 'G' :: '3' :: 'w' :: ')' :: 'F' :: '7' :: [])) =
       resolve_color (extract_spectral_data
         (some ('(' :: 'G' :: '3' :: 'w' :: ')' :: 'F' :: '7' :: []))).1) := by
  decide

/-- Claim C6, amended: the 3D latent-space variant does not run the
classifier; it maps the upper-cased first character of the spectral string
through the color table (absent for a missing or empty string), and it
coincides with the classify-based color of the main pipeline whenever the
upper-cased first character is the class letter classify returns. -/
theorem latent_color_first_char_rule :
    latent_color none = none ∧
    latent_color (some []) = none ∧
    (∀ (c : Char) (rest : List Char),
       latent_color (some (c :: rest)) = List.lookup c.toUpper COLOR_MAP) ∧
    (∀ (c : Char) (rest : List Char),
       (extract_spectral_data (some (c :: rest))).1 = some c.toUpper →
       latent_color (some (c :: rest)) =
         resolve_color (extract_spectral_data (some (c :: rest))).1) := by
  refine ⟨rfl, rfl, fun c rest => rfl, fun c rest h => ?_⟩
  rw [h]
  rfl

/-- Witness for the amended C6 at the concrete input `G2`. -/
theorem latent_color_first_char_rule_witness :
    latent_color (some ('G' :: '2' :: [])) =
      resolve_color (extract_spectral_data (some ('G' :: '2' :: []))).1 :=
  latent_color_first_char_rule.2.2.2 'G' ('2' :: []) (by decide)

/-- Claim C7: the loader attempts each configured source in order, returns
the payload of the first attempt that succeeds (later attempts are not
tried, so the result is independent of them), and returns the explicit
no-data result `none` when every attempt fails with a raised request
error. -/
theorem download_first_success {α : Type} :
    (∀ (pre rest : List (AttemptResult α)) (p : α),
       (∀ a ∈ pre, ∃ e, a = AttemptResult.failure e) →
       download_data (pre ++ AttemptResult.success p :: rest) = some p) ∧
    (∀ attempts : List (AttemptResult α),
       (∀ a ∈ attempts, ∃ e, a = AttemptResult.failure e) →
       download_data attempts = none) := by
  constructor
  · intro pre rest p
    induction pre with
    | nil => intro _; rfl
    | cons a t ih =>
      intro hpre
      obtain ⟨e, he⟩ := hpre a (List.mem_cons_self _ _)
      subst he
      simpa [download_data] using
        ih (fun x hx => hpre x (List.mem_cons_of_mem _ hx))
  · intro attempts
    induction attempts with
    | nil => intro _; rfl
    | cons a t ih =>
      intro hall
      obtain ⟨e, he⟩ := hall a (List.mem_cons_self _ _)
      subst he
      simpa [download_data] using
        ih (fun x hx => hall x (List.mem_cons_of_mem _ hx))

/-- Witness for C7: a timed-out first source followed by a succeeding
second source yields the second source's payload. -/
theorem download_first_success_witness :
    download_data ((AttemptResult.failure 1 :: []) ++
        AttemptResult.success (42 : Nat) :: AttemptResult.failure 2 :: []) =
      some 42 :=
  (@download_first_success Nat).1 (AttemptResult.failure 1 :: [])
    (AttemptResult.failure 2 :: []) 42
    (fun _a ha => ⟨1, List.mem_singleton.mp ha⟩)

/-- Claim C8: every row emitted by the normalizer comes from a retained
input record with all original fields unchanged — except the spectral string
of a record with identifier 65218, which is forced to `F7` — and the
classification, intensity and color fields are purely additive derived
fields computed from the row's spectral string. -/
theorem normalize_frame (rs : List CatalogRecord) (row : PlottableRow)
    (h : row ∈ process_rows rs) :
    ∃ r, r ∈ rs ∧ requiredFields r = true ∧
      row.record.id = r.id ∧
      row.record.absmag = r.absmag ∧
      row.record.ci = r.ci ∧
      row.record.lum = r.lum ∧
      (r.id = 65218 → row.record.spect = some ('F' :: '7' :: [])) ∧
      (r.id ≠ 65218 → row.record.spect = r.spect) ∧
      row.spect_class = (extract_spectral_data row.record.spect).1 ∧
      row.spect_num = (extract_spectral_data row.record.spect).2 ∧
      row.color = resolve_color (extract_spectral_data row.record.spect).1 := by
  obtain ⟨r, hmem, hrow⟩ := List.mem_map.mp h
  have hf := List.mem_filter.mp hmem
  subst hrow
  exact ⟨r, hf.1, hf.2, anomalyFix_id r, anomalyFix_absmag r, anomalyFix_ci r,
    anomalyFix_lum r, fun h65 => anomalyFix_spect_fix r h65,
    fun h65 => anomalyFix_spect_keep r h65, rfl, rfl, rfl⟩

/-- Witness for C8 at a one-row catalog holding an ordinary G2V record. -/
theorem normalize_frame_witness :
    ∃ r, r ∈ (sampleG2V :: []) ∧ requiredFields r = true ∧
      (rowOf sampleG2V).record.id = r.id ∧
      (rowOf sampleG2V).record.absmag = r.absmag ∧
      (rowOf sampleG2V).record.ci = r.ci ∧
      (rowOf sampleG2V).record.lum = r.lum ∧
      (r.id = 65218 → (rowOf sampleG2V).record.spect = some ('F' :: '7' :: [])) ∧
      (r.id ≠ 65218 → (rowOf sampleG2V).record.spect = r.spect) ∧
      (rowOf sampleG2V).spect_class =
        (extract_spectral_data (rowOf sampleG2V).record.spect).1 ∧
      (rowOf sampleG2V).spect_num =
        (extract_spectral_data (rowOf sampleG2V).record.spect).2 ∧
      (rowOf sampleG2V).color =
        resolve_color (extract_spectral_data (rowOf sampleG2V).record.spect).1 :=
  normalize_frame (sampleG2V :: []) (rowOf sampleG2V)
    (List.mem_singleton.mpr rfl)

/-- Claim C9: the color table and the spectral ordering table are defined
over exactly the same 14 class letters, and the ordering table assigns each
letter a distinct rank, the ranks being exactly 0 through 13. -/
theorem color_and_order_tables_aligned :
    (COLOR_MAP.map Prod.fst).toFinset = (spectral_map.map Prod.fst).toFinset ∧
    (COLOR_MAP.map Prod.fst).toFinset =
      ({'W', 'O', 'B', 'A', 'F', 'G', 'K', 'M', 'S', 'R', 'C', 'N', 'D', 'P'} :
        Finset Char) ∧
    (COLOR_MAP.map Prod.fst).Nodup ∧
    (spectral_map.map Prod.fst).Nodup ∧
    (spectral_map.map Prod.snd).Nodup ∧
    (spectral_map.map Prod.snd).toFinset = Finset.range 14 := by
  refine ⟨?_, ?_, ?_, ?_, ?_, ?_⟩ <;> decide

/-- Claim C10: when reading or decompressing the retrieved payload fails,
`process_data` returns the explicit no-data result `none` — no partial
normalized output is produced. -/
theorem process_data_read_failure (e : ReadFailure) :
    process_data (Except.error e) = none := rfl

/-- Witness for C10 at a concrete read failure. -/
theorem process_data_read_failure_witness :
    process_data (Except.error (ReadFailure.readFault 0)) = none :=
  process_data_read_failure (ReadFailure.readFault 0)

end LatentStars
